import Mathlib

/-
  Verification of the geometry-collection core of rgeo
  (src/ext/geos_c_impl/geometry_collection.c).

  The engine (GEOS) is external to the repository: its handles are embedded
  as a tree `GGeom`, its structural queries (GEOSGetNumGeometries_r,
  GEOSGetGeometryN_r, GEOSGeomTypeId_r) as functions on that tree, and its
  semantic primitives (element conversion, relate-by-pattern, the per-kind
  comparators) as explicit parameters or, where a concrete instance is
  needed, as definitions modelled from the spec.

  Machine integers (int, unsigned int) are embedded as Int/Nat; none of the
  modelled code paths can overflow them for the list sizes involved.
-/

/-- Stand-in for a Ruby class object used as a per-element subtype tag
(`klass` in the source); the code treats it as opaque, so any type with
decidable equality serves. -/
abbrev Klass := Nat

/-- The four collection kinds `create_geometry_collection` is invoked with
(GEOS_GEOMETRYCOLLECTION, GEOS_MULTIPOINT, GEOS_MULTILINESTRING,
GEOS_MULTIPOLYGON). -/
inductive CollKind where
  | geometryCollection
  | multiPoint
  | multiLineString
  | multiPolygon
deriving DecidableEq

/-- An engine-owned geometry handle (GEOSGeometry), embedded as a value
tree.  `weird` stands for a malformed handle on which the engine's type-id
and child-count queries fail or report an unrecognized kind. -/
inductive GGeom where
  | point (c : Int × Int)
  | linestring (cs : List (Int × Int))
  | linearring (cs : List (Int × Int))
  | polygon (shell : List (Int × Int)) (holes : List (List (Int × Int)))
  | coll (k : CollKind) (children : List GGeom)
  | weird (tid : Int)

instance : Inhabited GGeom := ⟨GGeom.point (0, 0)⟩

/-- GEOSGeomTypeId_r: the numeric geometry-kind id (GEOS_POINT = 0,
GEOS_LINESTRING = 1, GEOS_LINEARRING = 2, GEOS_POLYGON = 3,
GEOS_MULTIPOINT = 4, GEOS_MULTILINESTRING = 5, GEOS_MULTIPOLYGON = 6,
GEOS_GEOMETRYCOLLECTION = 7); negative on failure. -/
def GEOSGeomTypeId : GGeom → Int
  | .point _ => 0
  | .linestring _ => 1
  | .linearring _ => 2
  | .polygon _ _ => 3
  | .coll .multiPoint _ => 4
  | .coll .multiLineString _ => 5
  | .coll .multiPolygon _ => 6
  | .coll .geometryCollection _ => 7
  | .weird t => t

/-- GEOSGetNumGeometries_r: number of direct children for a collection,
1 for a simple geometry, -1 (failure) on a malformed handle. -/
def GEOSGetNumGeometries : GGeom → Int
  | .coll _ ch => (ch.length : Int)
  | .weird _ => -1
  | _ => 1

/-- GEOSGetGeometryN_r: child at index `i` of a collection; a simple
geometry is its own 0th sub-geometry; NULL (none) otherwise. -/
def GEOSGetGeometryN : GGeom → Nat → Option GGeom
  | .coll _ ch, i => ch[i]?
  | .weird _, _ => none
  | g, i => if i = 0 then some g else none

/-- The wrapped caller-facing object (RGeo_GeometryData): the owned engine
handle (NULL once detached/destroyed) plus the stored subtype-tag array. -/
structure SelfData where
  geom : Option GGeom
  klasses : Option (List (Option Klass))

/-- rb_ary_entry on the klasses array guarded by NIL_P, as used by
`impl_geometry_n` and `method_geometry_collection_each`. -/
def klassEntry (kl : Option (List (Option Klass))) (i : Nat) : Option Klass :=
  match kl with
  | none => none
  | some ks => ks.getD i none

/- **** Collection constructor (create_geometry_collection) **** -/

/-- One iteration of the klasses bookkeeping in the conversion loop of
`create_geometry_collection` (lines 90-98): materialize the array with `i`
nil slots on the first non-nil klass, then push the current klass whenever
the array exists. -/
def pushKlass (klasses : Option (List (Option Klass))) (i : Nat)
    (klass : Option Klass) : Option (List (Option Klass)) :=
  let k1 := if klass.isSome && klasses.isNone
            then some (List.replicate i none) else klasses
  match k1 with
  | some ks => some (ks ++ [klass])
  | none => none

/-- The conversion loop of `create_geometry_collection` (lines 84-99).
Element conversion (`rgeo_convert_to_detached_geos_geometry`, an external
collaborator per spec section 6) is abstracted by supplying its per-element
outcomes: `none` is a failed conversion, `some (g, klass)` a detached
handle plus optional subtype tag.  Returns the handles converted before
the first failure, the klasses array, and whether all elements converted
(`i == len` in the source). -/
def convertAll : List (Option (GGeom × Option Klass)) → List GGeom →
    Option (List (Option Klass)) →
    (List GGeom × Option (List (Option Klass)) × Bool)
  | [], geoms, klasses => (geoms, klasses, true)
  | none :: _, geoms, klasses => (geoms, klasses, false)
  | some (g, klass) :: rest, geoms, klasses =>
      convertAll rest (geoms ++ [g]) (pushKlass klasses geoms.length klass)

/-- The two relate checks run against one (i, j) pair (lines 115-122);
`relate` abstracts the engine primitive GEOSRelatePattern_r. -/
def pairProblem (relate : GGeom → GGeom → String → Bool)
    (gi gj : GGeom) : Bool :=
  relate gi gj "2********" || relate gi gj "****1****"

/-- The manual MultiPolygon assertion loop (lines 110-127): for i ascending
and, inside, j ascending below i, test the pair and stop at the first
violation. -/
def mpProblem (relate : GGeom → GGeom → String → Bool)
    (geoms : List GGeom) : Bool :=
  (List.range geoms.length).any fun i =>
    (List.range i).any fun j =>
      pairProblem relate (geoms.getD i default) (geoms.getD j default)

/-- Observable outcome of one `create_geometry_collection` call: the Ruby
result (`Qnil` = none), the element handles the constructor itself
destroyed (by index), and whether it destroyed the assembled collection
because of a validation problem. -/
structure CreateOut where
  result : Option SelfData
  destroyedElems : List Nat
  destroyedCollection : Bool
deriving Inhabited

/-- create_geometry_collection (lines 60-146).  The engine's
GEOSGeom_createCollection_r is embedded as total assembly of the converted
handles into a `GGeom.coll` (its own failure path is engine-internal); the
factory is represented by its `flags` word and by the relate primitive its
context supplies. -/
def create_geometry_collection (ty : CollKind) (flags : Nat)
    (relate : GGeom → GGeom → String → Bool)
    (outcomes : List (Option (GGeom × Option Klass))) : CreateOut :=
  let r := convertAll outcomes [] none
  let geoms := r.1
  let klasses := r.2.1
  let ok := r.2.2
  if ok then
    let collection := GGeom.coll ty geoms
    if ty = .multiPolygon ∧ flags % 2 = 0 then
      if mpProblem relate geoms then
        { result := none, destroyedElems := [], destroyedCollection := true }
      else
        { result := some ⟨some collection, klasses⟩,
          destroyedElems := [], destroyedCollection := false }
    else
      { result := some ⟨some collection, klasses⟩,
        destroyedElems := [], destroyedCollection := false }
  else
    { result := none, destroyedElems := List.range geoms.length,
      destroyedCollection := false }

/-- cmethod_multi_polygon_create (lines 378-381). -/
def cmethod_multi_polygon_create (flags : Nat)
    (relate : GGeom → GGeom → String → Bool)
    (outcomes : List (Option (GGeom × Option Klass))) : CreateOut :=
  create_geometry_collection .multiPolygon flags relate outcomes

/- **** Engine relate primitive modelled on rectangles **** -/

/-- An axis-aligned rectangle with positive extent in both axes. -/
structure Rect where
  x1 : Int
  y1 : Int
  x2 : Int
  y2 : Int

/-- The five-point shell of an axis-aligned rectangular polygon. -/
def rectPoly (x1 y1 x2 y2 : Int) : GGeom :=
  .polygon [(x1, y1), (x2, y1), (x2, y2), (x1, y2), (x1, y1)] []

/-- Recognize a rectangular polygon handle. -/
def rectOf : GGeom → Option Rect
  | .polygon [p0, p1, p2, p3, p4] [] =>
      if p1 = (p2.1, p0.2) ∧ p3 = (p0.1, p2.2) ∧ p4 = p0 ∧
          p0.1 < p2.1 ∧ p0.2 < p2.2
      then some ⟨p0.1, p0.2, p2.1, p2.2⟩ else none
  | _ => none

/-- Two closed integer intervals share a set of positive length. -/
def segOverlap (a1 a2 b1 b2 : Int) : Bool :=
  max a1 b1 < min a2 b2

/-- The open interiors of two rectangles intersect in a two-dimensional
set. -/
def interiorsOverlap (r s : Rect) : Bool :=
  segOverlap r.x1 r.x2 s.x1 s.x2 && segOverlap r.y1 r.y2 s.y1 s.y2

/-- The boundaries of two axis-aligned rectangles intersect in a
one-dimensional set: some pair of collinear edges overlaps along a
segment. -/
def boundariesShareSegment (r s : Rect) : Bool :=
  ((r.x1 == s.x1 || r.x1 == s.x2 || r.x2 == s.x1 || r.x2 == s.x2) &&
     segOverlap r.y1 r.y2 s.y1 s.y2) ||
  ((r.y1 == s.y1 || r.y1 == s.y2 || r.y2 == s.y1 || r.y2 == s.y2) &&
     segOverlap r.x1 r.x2 s.x1 s.x2)

/-- Modelled from the spec: the engine relate-by-pattern primitive
(GEOSRelatePattern_r, an external collaborator per section 6 and the
glossary), interpreted on axis-aligned rectangular polygons for the two
patterns the validator uses — "2********" holds iff the interiors
intersect in a two-dimensional set, "****1****" iff the boundaries
intersect in a one-dimensional set (section 4.2). -/
def rectRelate (g1 g2 : GGeom) (pat : String) : Bool :=
  match rectOf g1, rectOf g2 with
  | some r, some s =>
      if pat = "2********" then interiorsOverlap r s
      else if pat = "****1****" then boundariesShareSegment r s
      else false
  | _, _ => false

/- **** Collection accessors **** -/

/-- Modelled from the spec: `rgeo_wrap_geos_geometry_clone` (factory.c is
outside src/).  Per section 4.5 it makes an engine clone of the child and
wraps it together with its subtype tag; a NULL child wraps to nil.  In the
value embedding a clone is the same tree value (physical independence is
not observable here). -/
def rgeo_wrap_geos_geometry_clone (og : Option GGeom)
    (klass : Option Klass) : Option (GGeom × Option Klass) :=
  match og with
  | none => none
  | some g => some (g, klass)

/-- impl_geometry_n (lines 186-208): the shared body of `geometry_n` and
`[]`.  (The source's `method_geometry_collection_geometry_n` forwards this
value without a `return` statement; the embedding models the value the
call produces.) -/
def impl_geometry_n (sd : SelfData) (n : Int)
    (allow_negatives : Bool) : Option (GGeom × Option Klass) :=
  match sd.geom with
  | none => none
  | some g =>
    if allow_negatives || decide (0 ≤ n) then
      let len : Int := GEOSGetNumGeometries g
      let i := if n < 0 then n + len else n
      if 0 ≤ i ∧ i < len then
        rgeo_wrap_geos_geometry_clone (GEOSGetGeometryN g i.toNat)
          (klassEntry sd.klasses i.toNat)
      else none
    else none

/-- method_geometry_collection_geometry_n (lines 211-214). -/
def method_geometry_collection_geometry_n (sd : SelfData) (n : Int) :
    Option (GGeom × Option Klass) :=
  impl_geometry_n sd n false

/-- method_geometry_collection_brackets (lines 217-220). -/
def method_geometry_collection_brackets (sd : SelfData) (n : Int) :
    Option (GGeom × Option Klass) :=
  impl_geometry_n sd n true

/-- method_geometry_collection_each (lines 223-244), embedded as the list
of wrapped clones the loop yields to the caller's block, in loop order. -/
def method_geometry_collection_each (sd : SelfData) :
    List (GGeom × Option Klass) :=
  match sd.geom with
  | none => []
  | some g =>
    let len := GEOSGetNumGeometries g
    if 0 < len then
      (List.range len.toNat).filterMap fun i =>
        rgeo_wrap_geos_geometry_clone (GEOSGetGeometryN g i)
          (klassEntry sd.klasses i)
    else []

/- **** MultiLineString isClosed **** -/

/-- GEOSGeom_getCoordSeq_r: points and line strings expose a coordinate
sequence; other handles do not. -/
def coordSeqOf : GGeom → Option (List (Int × Int))
  | .point c => some [c]
  | .linestring cs => some cs
  | .linearring cs => some cs
  | _ => none

/-- Modelled from the spec: `rgeo_is_geos_line_string_closed`
(line_string.c is outside src/).  Per section 4.6 a member line is closed
iff its endpoints coincide; per section 7 a handle on which the
coordinate-sequence query is unanswerable (any collection) yields the
absent/indeterminate result rather than a boolean. -/
def rgeo_is_geos_line_string_closed (g : GGeom) : Option Bool :=
  match coordSeqOf g with
  | none => none
  | some cs =>
    if 0 < cs.length then some (decide (cs.head? = cs.getLast?)) else none

/-- The member loop of method_multi_line_string_is_closed (lines 293-304).
Faithful to the source: the closedness query at line 298 is applied to
`self_geom` — the whole collection — not to the fetched member `geom`,
which is only null-tested. -/
def mls_closed_loop (g : GGeom) (result : Option Bool) :
    List Nat → Option Bool
  | [] => result
  | i :: rest =>
    match GEOSGetGeometryN g i with
    | some _ =>
      let r := rgeo_is_geos_line_string_closed g
      if r = some true then mls_closed_loop g r rest else r
    | none => mls_closed_loop g result rest

/-- method_multi_line_string_is_closed (lines 284-307). -/
def method_multi_line_string_is_closed (sd : SelfData) : Option Bool :=
  match sd.geom with
  | none => none
  | some g =>
    let len := GEOSGetNumGeometries g
    if 0 < len then mls_closed_loop g (some true) (List.range len.toNat)
    else some true

/- **** Structural equality comparator **** -/

/-
  rgeo_geos_geometry_collections_eql (lines 436-499) recurses into itself
  on collection-kind children.  The embedding runs the same body on an
  explicit fuel argument (one unit per nesting level) and defines the
  C function with fuel `depth + 1`, which lemma `geos_eqlF_congr` shows is
  enough for the value to be fuel-independent.  The per-kind comparators
  rgeo_geos_coordseqs_eql and rgeo_geos_polygons_eql are external
  collaborators (spec sections 4.3 and 6) passed as parameters `cseq` and
  `pgon`; `none` is the Qnil (indeterminate) outcome.
-/

mutual

/-- The body of rgeo_geos_geometry_collections_eql at a given fuel:
null test, child-count queries and comparison, then the child loop. -/
def geos_eqlF (cseq pgon : Bool → GGeom → GGeom → Option Bool) :
    Nat → Option GGeom → Option GGeom → Bool → Option Bool
  | 0, _, _, _ => none
  | fuel + 1, some g1, some g2, z =>
    if GEOSGetNumGeometries g1 < 0 ∨ GEOSGetNumGeometries g2 < 0 then none
    else if GEOSGetNumGeometries g1 = GEOSGetNumGeometries g2 then
      geos_eqlLoopF cseq pgon fuel g1 g2 z
        (List.range (GEOSGetNumGeometries g1).toNat)
    else some false
  | _ + 1, _, _, _ => none
termination_by fuel _ _ _ => (fuel, 0)

/-- The child loop (lines 445-491): fetch child i from both sides, compare
kind ids, dispatch per kind, stop at the first non-true result. -/
def geos_eqlLoopF (cseq pgon : Bool → GGeom → GGeom → Option Bool) :
    Nat → GGeom → GGeom → Bool → List Nat → Option Bool
  | _, _, _, _, [] => some true
  | fuel, g1, g2, z, i :: rest =>
    match GEOSGetGeometryN g1 i, GEOSGetGeometryN g2 i with
    | some s1, some s2 =>
      if GEOSGeomTypeId s1 < 0 ∨ GEOSGeomTypeId s2 < 0 then none
      else if GEOSGeomTypeId s1 = GEOSGeomTypeId s2 then
        let r := geos_dispatchF cseq pgon fuel s1 s2 z
        if r = some true then geos_eqlLoopF cseq pgon fuel g1 g2 z rest
        else r
      else some false
    | _, _ => none
termination_by fuel _ _ _ idxs => (fuel, idxs.length + 2)

/-- The per-kind switch (lines 453-472): coordinate-sequence comparison
for point/linestring/linearring, polygon comparison for polygon,
recursion for the four collection kinds, indeterminate otherwise. -/
def geos_dispatchF (cseq pgon : Bool → GGeom → GGeom → Option Bool)
    (fuel : Nat) (s1 s2 : GGeom) (z : Bool) : Option Bool :=
  if GEOSGeomTypeId s1 = 0 ∨ GEOSGeomTypeId s1 = 1 ∨
      GEOSGeomTypeId s1 = 2 then cseq z s1 s2
  else if GEOSGeomTypeId s1 = 3 then pgon z s1 s2
  else if GEOSGeomTypeId s1 = 4 ∨ GEOSGeomTypeId s1 = 5 ∨
      GEOSGeomTypeId s1 = 6 ∨ GEOSGeomTypeId s1 = 7 then
    geos_eqlF cseq pgon fuel (some s1) (some s2) z
  else none
termination_by (fuel, 1)

end

/- **** Nesting depth, used only to pick a sufficient fuel **** -/

mutual

/-- Nesting depth of a geometry tree (0 for leaves). -/
def depth : GGeom → Nat
  | .coll _ ch => depthList ch + 1
  | _ => 0

/-- Maximum depth over a list of children. -/
def depthList : List GGeom → Nat
  | [] => 0
  | g :: rest => max (depth g) (depthList rest)

end

/-- Fuel sufficient to run the comparator body on its first argument. -/
def collFuel : Option GGeom → Nat
  | none => 1
  | some g => depth g + 1

/-- rgeo_geos_geometry_collections_eql (lines 436-499). -/
def rgeo_geos_geometry_collections_eql
    (cseq pgon : Bool → GGeom → GGeom → Option Bool)
    (og1 og2 : Option GGeom) (z : Bool) : Option Bool :=
  geos_eqlF cseq pgon (collFuel og1) og1 og2 z

/-- One child comparison as the loop performs it, phrased with the
top-level comparator in the recursive branch. -/
def childCmp (cseq pgon : Bool → GGeom → GGeom → Option Bool)
    (s1 s2 : GGeom) (z : Bool) : Option Bool :=
  if GEOSGeomTypeId s1 < 0 ∨ GEOSGeomTypeId s2 < 0 then none
  else if GEOSGeomTypeId s1 = GEOSGeomTypeId s2 then
    if GEOSGeomTypeId s1 = 0 ∨ GEOSGeomTypeId s1 = 1 ∨
        GEOSGeomTypeId s1 = 2 then cseq z s1 s2
    else if GEOSGeomTypeId s1 = 3 then pgon z s1 s2
    else if GEOSGeomTypeId s1 = 4 ∨ GEOSGeomTypeId s1 = 5 ∨
        GEOSGeomTypeId s1 = 6 ∨ GEOSGeomTypeId s1 = 7 then
      rgeo_geos_geometry_collections_eql cseq pgon (some s1) (some s2) z
    else none
  else some false

/-- One loop iteration's outcome (the value the loop would adopt or pass
over at index i), at a given fuel. -/
def geos_stepF (cseq pgon : Bool → GGeom → GGeom → Option Bool)
    (fuel : Nat) (g1 g2 : GGeom) (z : Bool) (i : Nat) : Option Bool :=
  match GEOSGetGeometryN g1 i, GEOSGetGeometryN g2 i with
  | some s1, some s2 =>
    if GEOSGeomTypeId s1 < 0 ∨ GEOSGeomTypeId s2 < 0 then none
    else if GEOSGeomTypeId s1 = GEOSGeomTypeId s2 then
      geos_dispatchF cseq pgon fuel s1 s2 z
    else some false
  | _, _ => none

/-- First element of the list that is not definite-true, else true: the
value the stop-at-first-violation loop produces. -/
def firstNonTrue : List (Option Bool) → Option Bool
  | [] => some true
  | r :: rest => if r = some true then firstNonTrue rest else r

/- **** Helper lemmas about the constructor **** -/

/-- Klasses bookkeeping replayed over a whole successfully converted list,
starting from position `n`. -/
def finalKl : Option (List (Option Klass)) → Nat →
    List (GGeom × Option Klass) → Option (List (Option Klass))
  | kl, _, [] => kl
  | kl, n, (_, t) :: rest => finalKl (pushKlass kl n t) (n + 1) rest

theorem convertAll_map_some (convs : List (GGeom × Option Klass)) :
    ∀ (geoms : List GGeom) (kl : Option (List (Option Klass))),
    convertAll (convs.map some) geoms kl =
      (geoms ++ convs.map Prod.fst, finalKl kl geoms.length convs, true) := by
  induction convs with
  | nil => intro geoms kl; simp [convertAll, finalKl]
  | cons c rest ih =>
      intro geoms kl
      obtain ⟨g, t⟩ := c
      simp only [List.map_cons, convertAll, finalKl, ih]
      simp

theorem finalKl_some (convs : List (GGeom × Option Klass)) :
    ∀ (ks : List (Option Klass)) (n : Nat),
    finalKl (some ks) n convs = some (ks ++ convs.map Prod.snd) := by
  induction convs with
  | nil => intro ks n; simp [finalKl]
  | cons c rest ih =>
      intro ks n
      obtain ⟨g, t⟩ := c
      have hpush : pushKlass (some ks) n t = some (ks ++ [t]) := by
        simp [pushKlass]
      simp [finalKl, hpush, ih]

theorem finalKl_none (convs : List (GGeom × Option Klass)) :
    ∀ (n : Nat),
    finalKl none n convs =
      if (convs.map Prod.snd).all Option.isNone then none
      else some (List.replicate n none ++ convs.map Prod.snd) := by
  induction convs with
  | nil => intro n; simp [finalKl]
  | cons c rest ih =>
      intro n
      obtain ⟨g, t⟩ := c
      cases t with
      | none =>
          have hpush : pushKlass none n none = none := by simp [pushKlass]
          have hrep : List.replicate (n + 1) (none : Option Klass) =
              List.replicate n none ++ [none] := List.replicate_succ' _ _
          simp only [finalKl, hpush, ih]
          by_cases hall : (rest.map Prod.snd).all Option.isNone
          · simp [hall]
          · simp only [hall, List.map_cons, List.all_cons, Option.isNone_none,
              Bool.true_and, if_neg hall, hrep]
            simp
      | some v =>
          have hpush : pushKlass none n (some v) =
              some (List.replicate n none ++ [some v]) := by simp [pushKlass]
          simp [finalKl, hpush, finalKl_some]

/-- Characterization of `create_geometry_collection` when every element
converts. -/
theorem create_map_some (ty : CollKind) (flags : Nat)
    (relate : GGeom → GGeom → String → Bool)
    (convs : List (GGeom × Option Klass)) :
    create_geometry_collection ty flags relate (convs.map some) =
      if ty = .multiPolygon ∧ flags % 2 = 0 ∧
          mpProblem relate (convs.map Prod.fst) = true then
        { result := none, destroyedElems := [], destroyedCollection := true }
      else
        { result := some ⟨some (GGeom.coll ty (convs.map Prod.fst)),
            finalKl none 0 convs⟩,
          destroyedElems := [], destroyedCollection := false } := by
  simp only [create_geometry_collection, convertAll_map_some, List.nil_append,
    List.length_nil]
  by_cases hmp : ty = .multiPolygon ∧ flags % 2 = 0
  · by_cases hpb : mpProblem relate (convs.map Prod.fst) = true
    · simp [hmp, hpb]
    · simp [hmp, hpb]
  · have : ¬(ty = .multiPolygon ∧ flags % 2 = 0 ∧
        mpProblem relate (convs.map Prod.fst) = true) := by
      intro h; exact hmp ⟨h.1, h.2.1⟩
    simp only [if_neg hmp, if_neg this]
    simp

/-- The conversion loop stops at the first failed element, having converted
exactly the `k` earlier ones. -/
theorem convertAll_fail (k : Nat) :
    ∀ (outs : List (Option (GGeom × Option Klass)))
      (geoms : List GGeom) (kl : Option (List (Option Klass))),
    outs[k]? = some none →
    (∀ j, j < k → ∃ v, outs[j]? = some (some v)) →
    (convertAll outs geoms kl).2.2 = false ∧
      (convertAll outs geoms kl).1.length = geoms.length + k := by
  induction k with
  | zero =>
      intro outs geoms kl hfail _
      cases outs with
      | nil => simp at hfail
      | cons o rest =>
          simp only [List.getElem?_cons_zero, Option.some.injEq] at hfail
          subst hfail
          simp [convertAll]
  | succ k ih =>
      intro outs geoms kl hfail hok
      obtain ⟨v, hv⟩ := hok 0 (Nat.succ_pos k)
      cases outs with
      | nil => simp at hv
      | cons o rest =>
          simp only [List.getElem?_cons_zero, Option.some.injEq] at hv
          subst hv
          obtain ⟨g, t⟩ := v
          simp only [convertAll]
          have hfail' : rest[k]? = some none := by
            simpa using hfail
          have hok' : ∀ j, j < k → ∃ w, rest[j]? = some (some w) := by
            intro j hj
            have := hok (j + 1) (by omega)
            simpa using this
          have := ih rest (geoms ++ [g]) (pushKlass kl geoms.length t)
            hfail' hok'
          refine ⟨this.1, ?_⟩
          rw [this.2]
          simp
          omega

/-- The pair loop matches exactly the pairs (i, j) with j < i < len for
which one of the two relate patterns holds. -/
theorem mpProblem_iff (relate : GGeom → GGeom → String → Bool)
    (geoms : List GGeom) :
    mpProblem relate geoms = true ↔
      ∃ i, i < geoms.length ∧ ∃ j, j < i ∧
        (relate (geoms.getD i default) (geoms.getD j default)
            "2********" = true ∨
         relate (geoms.getD i default) (geoms.getD j default)
            "****1****" = true) := by
  simp [mpProblem, pairProblem, List.any_eq_true, List.mem_range]

/- **** Claim C1 **** -/

/-- C1: collection construction is all-or-nothing.  If element conversion
fails at index `k` (all earlier elements having converted), then every
handle converted at indices 0..k-1 is destroyed before the call returns,
no collection object is produced, and the constructor returns the absent
result. -/
theorem create_atomic_on_failure (ty : CollKind) (flags : Nat)
    (relate : GGeom → GGeom → String → Bool)
    (outs : List (Option (GGeom × Option Klass))) (k : Nat)
    (hfail : outs[k]? = some none)
    (hok : ∀ j, j < k → ∃ v, outs[j]? = some (some v)) :
    (create_geometry_collection ty flags relate outs).result = none ∧
    (create_geometry_collection ty flags relate outs).destroyedElems =
      List.range k := by
  have h := convertAll_fail k outs [] none hfail hok
  have hlen : (convertAll outs [] none).1.length = k := by
    have := h.2; simpa using this
  simp [create_geometry_collection, h.1, hlen]

/-- C1 witness: a two-element list whose second element fails to convert;
the one converted handle (index 0) is destroyed and no collection results. -/
theorem create_atomic_on_failure_witness :
    (create_geometry_collection .multiPoint 0 (fun _ _ _ => false)
      [some (GGeom.point (0, 0), none), none]).result = none ∧
    (create_geometry_collection .multiPoint 0 (fun _ _ _ => false)
      [some (GGeom.point (0, 0), none), none]).destroyedElems =
      List.range 1 :=
  create_atomic_on_failure .multiPoint 0 (fun _ _ _ => false)
    [some (GGeom.point (0, 0), none), none] 1 rfl
    (by
      intro j hj
      have hj0 : j = 0 := by omega
      subst hj0
      exact ⟨(GGeom.point (0, 0), none), rfl⟩)

/- **** Claim C2 **** -/

/-- C2: with all elements converting, construction fails — the assembled
collection destroyed and the absent result returned — exactly when the
target kind is MultiPolygon, the factory's skip-validation flag bit is
clear, and some pair (i, j) with i > j matches the "2********" or
"****1****" relate pattern; for every other kind, or with the flag set,
the same inputs construct successfully (no pairwise check applies). -/
theorem create_multiPolygon_validation (ty : CollKind) (flags : Nat)
    (relate : GGeom → GGeom → String → Bool)
    (convs : List (GGeom × Option Klass)) :
    ((create_geometry_collection ty flags relate (convs.map some)).result
        = none ↔
      (ty = .multiPolygon ∧ flags % 2 = 0 ∧
        ∃ i, i < convs.length ∧ ∃ j, j < i ∧
          (relate ((convs.map Prod.fst).getD i default)
              ((convs.map Prod.fst).getD j default) "2********" = true ∨
           relate ((convs.map Prod.fst).getD i default)
              ((convs.map Prod.fst).getD j default) "****1****" = true))) ∧
    ((create_geometry_collection ty flags relate
        (convs.map some)).destroyedCollection = true ↔
      (ty = .multiPolygon ∧ flags % 2 = 0 ∧
        ∃ i, i < convs.length ∧ ∃ j, j < i ∧
          (relate ((convs.map Prod.fst).getD i default)
              ((convs.map Prod.fst).getD j default) "2********" = true ∨
           relate ((convs.map Prod.fst).getD i default)
              ((convs.map Prod.fst).getD j default) "****1****" = true))) := by
  have hlen : (convs.map Prod.fst).length = convs.length := by simp
  rw [create_map_some]
  by_cases h : ty = .multiPolygon ∧ flags % 2 = 0 ∧
      mpProblem relate (convs.map Prod.fst) = true
  · rw [if_pos h]
    obtain ⟨h1, h2, h3⟩ := h
    rw [mpProblem_iff, hlen] at h3
    have hR := And.intro h1 (And.intro h2 h3)
    exact ⟨iff_of_true rfl hR, iff_of_true rfl hR⟩
  · rw [if_neg h]
    have hR : ¬(ty = .multiPolygon ∧ flags % 2 = 0 ∧
        ∃ i, i < convs.length ∧ ∃ j, j < i ∧
          (relate ((convs.map Prod.fst).getD i default)
              ((convs.map Prod.fst).getD j default) "2********" = true ∨
           relate ((convs.map Prod.fst).getD i default)
              ((convs.map Prod.fst).getD j default) "****1****" = true)) :=
      fun hc => h ⟨hc.1, hc.2.1, by rw [mpProblem_iff, hlen]; exact hc.2.2⟩
    exact ⟨iff_of_false (by simp) hR, iff_of_false (by simp) hR⟩

/- **** Claim C7 **** -/

/-- C7 counterexample: two unit squares touching only along the shared
edge x = 1 (their interiors do not overlap: the "2********" pattern is
false for the pair), yet MultiPolygon construction with validation
enabled returns the absent result rather than succeeding. -/
theorem multiPolygon_shared_edge_counterexample :
    (cmethod_multi_polygon_create 0 rectRelate
      [some (rectPoly 0 0 1 1, none), some (rectPoly 1 0 2 1, none)]).result
        = none ∧
    rectRelate (rectPoly 1 0 2 1) (rectPoly 0 0 1 1) "2********" = false ∧
    rectRelate (rectPoly 1 0 2 1) (rectPoly 0 0 1 1) "****1****" = true :=
  ⟨rfl, rfl, rfl⟩

/-- C7 amended: constructing a MultiPolygon from two polygons that touch
only along a shared boundary edge FAILS when validation is enabled — the
shared edge makes the boundaries intersect in a one-dimensional set, so
the pair matches the "****1****" pattern and is rejected. -/
theorem multiPolygon_shared_edge_rejected (x1 y1 x2 y2 x3 : Int)
    (h1 : x1 < x2) (h2 : x2 < x3) (hy : y1 < y2) :
    (cmethod_multi_polygon_create 0 rectRelate
      [some (rectPoly x1 y1 x2 y2, none),
       some (rectPoly x2 y1 x3 y2, none)]).result = none := by
  have hrect1 : rectOf (rectPoly x1 y1 x2 y2) = some ⟨x1, y1, x2, y2⟩ := by
    simp [rectOf, rectPoly, h1, hy]
  have hrect2 : rectOf (rectPoly x2 y1 x3 y2) = some ⟨x2, y1, x3, y2⟩ := by
    simp [rectOf, rectPoly, h2, hy]
  have hbody : rectRelate (rectPoly x2 y1 x3 y2) (rectPoly x1 y1 x2 y2)
      "****1****" = true := by
    simp only [rectRelate, hrect2, hrect1, boundariesShareSegment,
      segOverlap]
    rw [if_neg (show ((("****1****" : String) = "2********") → False) from
      by decide), if_pos trivial]
    simp only [Bool.or_eq_true, Bool.and_eq_true, beq_iff_eq,
      decide_eq_true_eq]
    refine Or.inl ⟨by tauto, ?_⟩
    simpa using hy
  have hmp : mpProblem rectRelate
      [rectPoly x1 y1 x2 y2, rectPoly x2 y1 x3 y2] = true := by
    rw [mpProblem_iff]
    exact ⟨1, by simp, 0, by omega, Or.inr hbody⟩
  have hlist : [some (rectPoly x1 y1 x2 y2, (none : Option Klass)),
      some (rectPoly x2 y1 x3 y2, none)] =
      ([(rectPoly x1 y1 x2 y2, none),
        (rectPoly x2 y1 x3 y2, none)] : List (GGeom × Option Klass)).map
        some := rfl
  rw [cmethod_multi_polygon_create, hlist, create_map_some,
    if_pos ⟨rfl, rfl, hmp⟩]

/-- C7 amended witness at concrete rectangles [0,2]x[0,1] and
[2,3]x[0,1]. -/
theorem multiPolygon_shared_edge_rejected_witness :
    (cmethod_multi_polygon_create 0 rectRelate
      [some (rectPoly 0 0 2 1, none),
       some (rectPoly 2 0 3 1, none)]).result = none :=
  multiPolygon_shared_edge_rejected 0 0 2 1 3 (by decide) (by decide)
    (by decide)

/- **** Claim C8 **** -/

/-- C8: the subtype-tag array of a constructed collection is entirely
absent when no element's conversion yielded a tag, and otherwise is the
per-element tag list — materialized at the first non-absent tag with all
earlier slots backfilled as absent — whose length equals the element
count of the collection. -/
theorem create_klasses_sparse (ty : CollKind) (flags : Nat)
    (relate : GGeom → GGeom → String → Bool)
    (convs : List (GGeom × Option Klass)) (w : SelfData)
    (hres : (create_geometry_collection ty flags relate
      (convs.map some)).result = some w) :
    w.klasses = (if (convs.map Prod.snd).all Option.isNone then none
                 else some (convs.map Prod.snd)) ∧
    w.geom = some (GGeom.coll ty (convs.map Prod.fst)) ∧
    (∀ ks, w.klasses = some ks →
      (ks.length : Int) =
        GEOSGetNumGeometries (GGeom.coll ty (convs.map Prod.fst))) := by
  rw [create_map_some] at hres
  by_cases h : ty = .multiPolygon ∧ flags % 2 = 0 ∧
      mpProblem relate (convs.map Prod.fst) = true
  · rw [if_pos h] at hres
    simp at hres
  · rw [if_neg h] at hres
    simp only [Option.some.injEq] at hres
    subst hres
    have hkl : finalKl none 0 convs =
        if (convs.map Prod.snd).all Option.isNone then none
        else some (convs.map Prod.snd) := by
      rw [finalKl_none]
      simp
    refine ⟨hkl, rfl, ?_⟩
    intro ks hks
    rw [hkl] at hks
    by_cases hall : (convs.map Prod.snd).all Option.isNone
    · rw [if_pos hall] at hks; simp at hks
    · rw [if_neg hall] at hks
      simp only [Option.some.injEq] at hks
      subst hks
      simp [GEOSGetNumGeometries]

/-- C8 witness: a two-element list whose second element carries a tag;
the tag array materializes as [absent, 5] of length 2. -/
theorem create_klasses_sparse_witness :
    (⟨some (GGeom.coll .multiPoint [GGeom.point (0, 0), GGeom.point (1, 1)]),
        some [none, some 5]⟩ : SelfData).klasses =
      (if (([(GGeom.point (0, 0), (none : Option Klass)),
            (GGeom.point (1, 1), some 5)].map Prod.snd).all Option.isNone)
       then none
       else some ([(GGeom.point (0, 0), (none : Option Klass)),
            (GGeom.point (1, 1), some 5)].map Prod.snd)) ∧
    (⟨some (GGeom.coll .multiPoint [GGeom.point (0, 0), GGeom.point (1, 1)]),
        some [none, some 5]⟩ : SelfData).geom =
      some (GGeom.coll .multiPoint
        ([(GGeom.point (0, 0), (none : Option Klass)),
          (GGeom.point (1, 1), some 5)].map Prod.fst)) ∧
    (∀ ks, (⟨some (GGeom.coll .multiPoint
          [GGeom.point (0, 0), GGeom.point (1, 1)]),
        some [none, some 5]⟩ : SelfData).klasses = some ks →
      (ks.length : Int) =
        GEOSGetNumGeometries (GGeom.coll .multiPoint
          ([(GGeom.point (0, 0), (none : Option Klass)),
            (GGeom.point (1, 1), some 5)].map Prod.fst))) :=
  create_klasses_sparse .multiPoint 0 (fun _ _ _ => false)
    [(GGeom.point (0, 0), none), (GGeom.point (1, 1), some 5)]
    ⟨some (GGeom.coll .multiPoint [GGeom.point (0, 0), GGeom.point (1, 1)]),
      some [none, some 5]⟩ rfl

/- **** Accessor helper lemmas **** -/

theorem getElem?_eq_some_getD {α : Type} [Inhabited α] (l : List α)
    (i : Nat) (h : i < l.length) : l[i]? = some (l.getD i default) := by
  rw [List.getD_eq_getElem?_getD, List.getElem?_eq_getElem h]
  simp

theorem filterMap_eq_map_on {α β : Type} (l : List α) (f : α → Option β)
    (g : α → β) (h : ∀ a ∈ l, f a = some (g a)) :
    l.filterMap f = l.map g := by
  induction l with
  | nil => rfl
  | cons x xs ih =>
      rw [List.filterMap_cons, h x (by simp), List.map_cons,
        ih fun a ha => h a (by simp [ha])]

/-- Full evaluation of the bracket accessor on a collection handle. -/
theorem brackets_eval (kl : Option (List (Option Klass))) (k : CollKind)
    (ch : List GGeom) (i : Int) :
    method_geometry_collection_brackets ⟨some (.coll k ch), kl⟩ i =
      if 0 ≤ (if i < 0 then i + (ch.length : Int) else i) ∧
          (if i < 0 then i + (ch.length : Int) else i) < (ch.length : Int)
      then
        rgeo_wrap_geos_geometry_clone
          (GEOSGetGeometryN (.coll k ch)
            (if i < 0 then i + (ch.length : Int) else i).toNat)
          (klassEntry kl (if i < 0 then i + (ch.length : Int) else i).toNat)
      else none := by
  simp [method_geometry_collection_brackets, impl_geometry_n,
    GEOSGetNumGeometries]

/- **** Claim C6 **** -/

/-- C6: the bracket accessor normalizes negative indices by adding the
element count (-1 denotes the last element, shown by elementAt(i) and
elementAt(i - n) agreeing for in-range i), returns the absent result for
every index whose normalized form is outside 0..n-1, and for in-range
indices returns a clone of the child with its stored subtype tag. -/
theorem brackets_index_spec (kl : Option (List (Option Klass)))
    (k : CollKind) (ch : List GGeom) (i : Int) :
    (((ch.length : Int) ≤ i ∨ i < -(ch.length : Int)) →
      method_geometry_collection_brackets ⟨some (.coll k ch), kl⟩ i
        = none) ∧
    (0 ≤ i → i < (ch.length : Int) →
      method_geometry_collection_brackets ⟨some (.coll k ch), kl⟩ i =
        some (ch.getD i.toNat default, klassEntry kl i.toNat) ∧
      method_geometry_collection_brackets ⟨some (.coll k ch), kl⟩
          (i - (ch.length : Int)) =
        method_geometry_collection_brackets ⟨some (.coll k ch), kl⟩ i) := by
  constructor
  · intro hout
    rw [brackets_eval]
    by_cases hneg : i < 0
    · simp only [if_pos hneg]
      rw [if_neg (by omega)]
    · simp only [if_neg hneg]
      rw [if_neg (by omega)]
  · intro h0 hlt
    have hnn : ¬i < 0 := by omega
    have hi : i.toNat < ch.length := by omega
    constructor
    · rw [brackets_eval]
      simp only [if_neg hnn]
      rw [if_pos ⟨h0, hlt⟩]
      have : GEOSGetGeometryN (.coll k ch) i.toNat =
          some (ch.getD i.toNat default) := by
        simp only [GEOSGetGeometryN]
        exact getElem?_eq_some_getD ch i.toNat hi
      rw [this, rgeo_wrap_geos_geometry_clone]
    · rw [brackets_eval, brackets_eval]
      have hneg2 : i - (ch.length : Int) < 0 := by omega
      simp only [if_pos hneg2, if_neg hnn]
      rw [show i - (ch.length : Int) + (ch.length : Int) = i by omega]

/-- C6 witness at a two-element collection: index 5 is out of range after
normalization; index 1 is in range and agrees with index 1 - 2 = -1. -/
theorem brackets_index_spec_witness :
    method_geometry_collection_brackets
        ⟨some (.coll .geometryCollection
          [GGeom.point (0, 0), GGeom.point (1, 1)]),
         some [none, some 7]⟩ 5 = none ∧
    (method_geometry_collection_brackets
        ⟨some (.coll .geometryCollection
          [GGeom.point (0, 0), GGeom.point (1, 1)]),
         some [none, some 7]⟩ 1 =
      some ([GGeom.point (0, 0), GGeom.point (1, 1)].getD
        (1 : Int).toNat default,
        klassEntry (some [none, some 7]) (1 : Int).toNat) ∧
     method_geometry_collection_brackets
        ⟨some (.coll .geometryCollection
          [GGeom.point (0, 0), GGeom.point (1, 1)]),
         some [none, some 7]⟩ (1 - ([GGeom.point (0, 0),
           GGeom.point (1, 1)].length : Int)) =
      method_geometry_collection_brackets
        ⟨some (.coll .geometryCollection
          [GGeom.point (0, 0), GGeom.point (1, 1)]),
         some [none, some 7]⟩ 1) :=
  ⟨(brackets_index_spec (some [none, some 7]) .geometryCollection
      [GGeom.point (0, 0), GGeom.point (1, 1)] 5).1 (by left; decide),
   (brackets_index_spec (some [none, some 7]) .geometryCollection
      [GGeom.point (0, 0), GGeom.point (1, 1)] 1).2 (by decide) (by decide)⟩

/- **** Claim C10 **** -/

/-- C10: the two indexed accessors differ exactly on negative indices —
`geometry_n` returns the absent result without normalizing, while the
bracket accessor adds the element count before range checking; on
non-negative indices they agree. -/
theorem geometry_n_vs_brackets (kl : Option (List (Option Klass)))
    (k : CollKind) (ch : List GGeom) (i : Int) :
    (i < 0 →
      method_geometry_collection_geometry_n ⟨some (.coll k ch), kl⟩ i
        = none) ∧
    (i < 0 →
      method_geometry_collection_brackets ⟨some (.coll k ch), kl⟩ i =
        if 0 ≤ i + (ch.length : Int) then
          rgeo_wrap_geos_geometry_clone
            (GEOSGetGeometryN (.coll k ch) (i + (ch.length : Int)).toNat)
            (klassEntry kl (i + (ch.length : Int)).toNat)
        else none) ∧
    (0 ≤ i →
      method_geometry_collection_geometry_n ⟨some (.coll k ch), kl⟩ i =
        method_geometry_collection_brackets ⟨some (.coll k ch), kl⟩ i) := by
  refine ⟨?_, ?_, ?_⟩
  · intro h
    simp [method_geometry_collection_geometry_n, impl_geometry_n,
      show ¬(0 ≤ i) by omega]
  · intro h
    rw [brackets_eval]
    simp only [if_pos h]
    by_cases hin : 0 ≤ i + (ch.length : Int)
    · rw [if_pos ⟨hin, by omega⟩, if_pos hin]
    · rw [if_neg (by omega), if_neg hin]
  · intro h
    simp [method_geometry_collection_geometry_n,
      method_geometry_collection_brackets, impl_geometry_n, h]

/-- C10 witness: at index -3 `geometry_n` is absent while the bracket
accessor normalizes; at index 0 the two accessors agree. -/
theorem geometry_n_vs_brackets_witness :
    method_geometry_collection_geometry_n
        ⟨some (.coll .geometryCollection
          [GGeom.point (0, 0), GGeom.point (1, 1)]), none⟩ (-3) = none ∧
    method_geometry_collection_geometry_n
        ⟨some (.coll .geometryCollection
          [GGeom.point (0, 0), GGeom.point (1, 1)]), none⟩ 0 =
      method_geometry_collection_brackets
        ⟨some (.coll .geometryCollection
          [GGeom.point (0, 0), GGeom.point (1, 1)]), none⟩ 0 :=
  ⟨(geometry_n_vs_brackets none .geometryCollection
      [GGeom.point (0, 0), GGeom.point (1, 1)] (-3)).1 (by decide),
   (geometry_n_vs_brackets none .geometryCollection
      [GGeom.point (0, 0), GGeom.point (1, 1)] 0).2.2 (by decide)⟩

/- **** Claim C9 **** -/

/-- C9: the forEach traversal passes exactly n wrapped clones to the
visitor, one per child in ascending index order (each carrying its stored
subtype tag), with zero visits when the child count is zero. -/
theorem geometry_collection_each_visits (kl : Option (List (Option Klass)))
    (k : CollKind) (ch : List GGeom) :
    method_geometry_collection_each ⟨some (.coll k ch), kl⟩ =
      (List.range ch.length).map
        (fun i => (ch.getD i default, klassEntry kl i)) ∧
    (method_geometry_collection_each ⟨some (.coll k ch), kl⟩).length =
      ch.length := by
  have hmain : method_geometry_collection_each ⟨some (.coll k ch), kl⟩ =
      (List.range ch.length).map
        (fun i => (ch.getD i default, klassEntry kl i)) := by
    cases ch with
    | nil => simp [method_geometry_collection_each, GEOSGetNumGeometries]
    | cons c cs =>
        have hpos : (0 : Int) <
            GEOSGetNumGeometries (.coll k (c :: cs)) := by
          simp [GEOSGetNumGeometries]
        simp only [method_geometry_collection_each, if_pos hpos]
        have htn : (GEOSGetNumGeometries (.coll k (c :: cs))).toNat =
            (c :: cs).length := by
          simp [GEOSGetNumGeometries]
        rw [htn]
        apply filterMap_eq_map_on
        intro i hi
        rw [List.mem_range] at hi
        have hfetch : GEOSGetGeometryN (.coll k (c :: cs)) i =
            some ((c :: cs).getD i default) := by
          simp only [GEOSGetGeometryN]
          exact getElem?_eq_some_getD _ i hi
        rw [hfetch, rgeo_wrap_geos_geometry_clone]
  exact ⟨hmain, by rw [hmain]; simp⟩

/- **** Claim C5 **** -/

/-- C5 evaluation: for zero members the method returns true, but on a
MultiLineString with a single open member it returns nil (indeterminate)
— not false — because the source queries closedness of the collection
handle itself (self_geom, line 298) instead of the fetched member, and on
a collection that query is unanswerable.  The middle conjunct shows the
member really is open. -/
theorem multi_line_string_is_closed_eval :
    method_multi_line_string_is_closed
        ⟨some (.coll .multiLineString []), none⟩ = some true ∧
    rgeo_is_geos_line_string_closed
        (.linestring [(0, 0), (1, 0)]) = some false ∧
    method_multi_line_string_is_closed
        ⟨some (.coll .multiLineString [.linestring [(0, 0), (1, 0)]]),
         none⟩ = none :=
  ⟨rfl, rfl, rfl⟩

/- **** Equality comparator helper lemmas **** -/

theorem mem_of_getElem_opt {α : Type} {l : List α} {i : Nat} {a : α}
    (h : l[i]? = some a) : a ∈ l := by
  obtain ⟨hlt, rfl⟩ := List.getElem?_eq_some_iff.1 h
  exact List.getElem_mem hlt

theorem depthList_ge (s : GGeom) :
    ∀ (ch : List GGeom), s ∈ ch → depth s ≤ depthList ch := by
  intro ch
  induction ch with
  | nil => intro h; simp at h
  | cons c rest ih =>
      intro h
      rw [List.mem_cons] at h
      rcases h with h | h
      · subst h
        simp only [depthList]
        exact le_max_left _ _
      · calc depth s ≤ depthList rest := ih h
          _ ≤ max (depth c) (depthList rest) := le_max_right _ _

theorem depth_lt_of_mem {s : GGeom} {k : CollKind} {ch : List GGeom}
    (h : s ∈ ch) : depth s < depth (GGeom.coll k ch) := by
  have := depthList_ge s ch h
  simp only [depth]
  omega

/-- The loop equals the first non-true step value (stop-at-first). -/
theorem eqlLoopF_eq_firstNonTrue
    (cseq pgon : Bool → GGeom → GGeom → Option Bool) (fuel : Nat)
    (g1 g2 : GGeom) (z : Bool) :
    ∀ idxs, geos_eqlLoopF cseq pgon fuel g1 g2 z idxs =
      firstNonTrue (idxs.map (geos_stepF cseq pgon fuel g1 g2 z)) := by
  intro idxs
  induction idxs with
  | nil => simp [geos_eqlLoopF, firstNonTrue]
  | cons i rest ih =>
      cases hf1 : GEOSGetGeometryN g1 i with
      | none =>
          cases hf2 : GEOSGetGeometryN g2 i with
          | none => simp [geos_eqlLoopF, geos_stepF, firstNonTrue, hf1, hf2]
          | some s2 => simp [geos_eqlLoopF, geos_stepF, firstNonTrue, hf1, hf2]
      | some s1 =>
          cases hf2 : GEOSGetGeometryN g2 i with
          | none => simp [geos_eqlLoopF, geos_stepF, firstNonTrue, hf1, hf2]
          | some s2 =>
              simp only [geos_eqlLoopF, geos_stepF, hf1, hf2, List.map_cons,
                firstNonTrue]
              by_cases ht : GEOSGeomTypeId s1 < 0 ∨ GEOSGeomTypeId s2 < 0
              · simp [ht]
              · simp only [if_neg ht]
                by_cases heq : GEOSGeomTypeId s1 = GEOSGeomTypeId s2
                · simp only [if_pos heq]
                  by_cases hr :
                      geos_dispatchF cseq pgon fuel s1 s2 z = some true
                  · simp [hr, ih]
                  · simp [hr]
                · simp [heq]

/-- Step congruence from dispatch congruence on fetched children. -/
theorem geos_stepF_congr
    (cseq pgon : Bool → GGeom → GGeom → Option Bool)
    (g1 g2 : GGeom) (z : Bool) (fa fb : Nat)
    (hd : ∀ i s1 s2, GEOSGetGeometryN g1 i = some s1 →
      GEOSGetGeometryN g2 i = some s2 →
      geos_dispatchF cseq pgon fa s1 s2 z =
        geos_dispatchF cseq pgon fb s1 s2 z) :
    ∀ i, geos_stepF cseq pgon fa g1 g2 z i =
      geos_stepF cseq pgon fb g1 g2 z i := by
  intro i
  cases hf1 : GEOSGetGeometryN g1 i with
  | none => simp [geos_stepF, hf1]
  | some s1 =>
      cases hf2 : GEOSGetGeometryN g2 i with
      | none => simp [geos_stepF, hf1, hf2]
      | some s2 => simp [geos_stepF, hf1, hf2, hd i s1 s2 hf1 hf2]

/-- Dispatch does not consume fuel on non-collection kind ids. -/
theorem geos_dispatchF_fuel_free
    (cseq pgon : Bool → GGeom → GGeom → Option Bool)
    (s1 s2 : GGeom) (z : Bool) (fa fb : Nat)
    (hlt : GEOSGeomTypeId s1 < 4) :
    geos_dispatchF cseq pgon fa s1 s2 z =
      geos_dispatchF cseq pgon fb s1 s2 z := by
  simp only [geos_dispatchF]
  split_ifs with h1 h2 h3
  · rfl
  · rfl
  · omega
  · rfl

/-- Steps on a non-collection left handle are fuel-independent. -/
theorem geos_stepF_congr_noncoll
    (cseq pgon : Bool → GGeom → GGeom → Option Bool)
    (g1 g2 : GGeom) (z : Bool) (fa fb : Nat)
    (hnc : ∀ k ch, g1 ≠ GGeom.coll k ch) :
    ∀ i, geos_stepF cseq pgon fa g1 g2 z i =
      geos_stepF cseq pgon fb g1 g2 z i := by
  apply geos_stepF_congr
  intro j s1 s2 hf1 hf2
  cases g1 with
  | coll k ch => exact absurd rfl (hnc k ch)
  | weird t => simp [GEOSGetGeometryN] at hf1
  | point c =>
      have hs1 : GGeom.point c = s1 := by
        by_cases hj : j = 0
        · subst hj
          simpa [GEOSGetGeometryN] using hf1
        · simp [GEOSGetGeometryN, hj] at hf1
      subst hs1
      exact geos_dispatchF_fuel_free cseq pgon _ s2 z fa fb
        (by simp [GEOSGeomTypeId])
  | linestring cs1 =>
      have hs1 : GGeom.linestring cs1 = s1 := by
        by_cases hj : j = 0
        · subst hj
          simpa [GEOSGetGeometryN] using hf1
        · simp [GEOSGetGeometryN, hj] at hf1
      subst hs1
      exact geos_dispatchF_fuel_free cseq pgon _ s2 z fa fb
        (by simp [GEOSGeomTypeId])
  | linearring cs1 =>
      have hs1 : GGeom.linearring cs1 = s1 := by
        by_cases hj : j = 0
        · subst hj
          simpa [GEOSGetGeometryN] using hf1
        · simp [GEOSGetGeometryN, hj] at hf1
      subst hs1
      exact geos_dispatchF_fuel_free cseq pgon _ s2 z fa fb
        (by simp [GEOSGeomTypeId])
  | polygon sh hs =>
      have hs1 : GGeom.polygon sh hs = s1 := by
        by_cases hj : j = 0
        · subst hj
          simpa [GEOSGetGeometryN] using hf1
        · simp [GEOSGetGeometryN, hj] at hf1
      subst hs1
      exact geos_dispatchF_fuel_free cseq pgon _ s2 z fa fb
        (by simp [GEOSGeomTypeId])

/-- Fuel congruence of the comparator body, given step congruence at the
decremented fuels. -/
theorem geos_eqlF_congr_aux
    (cseq pgon : Bool → GGeom → GGeom → Option Bool)
    (g1 : GGeom) (fa fb : Nat) (hfa : 0 < fa) (hfb : 0 < fb)
    (hstep : ∀ g2 z i, geos_stepF cseq pgon (fa - 1) g1 g2 z i =
      geos_stepF cseq pgon (fb - 1) g1 g2 z i) :
    ∀ og2 z, geos_eqlF cseq pgon fa (some g1) og2 z =
      geos_eqlF cseq pgon fb (some g1) og2 z := by
  intro og2 z
  obtain ⟨fa1, rfl⟩ : ∃ m, fa = m + 1 := ⟨fa - 1, by omega⟩
  obtain ⟨fb1, rfl⟩ : ∃ m, fb = m + 1 := ⟨fb - 1, by omega⟩
  simp only [Nat.add_sub_cancel] at hstep
  cases og2 with
  | none => simp [geos_eqlF]
  | some g2 =>
      simp only [geos_eqlF]
      by_cases hlen : GEOSGetNumGeometries g1 < 0 ∨
          GEOSGetNumGeometries g2 < 0
      · simp [hlen]
      · simp only [if_neg hlen]
        by_cases heq : GEOSGetNumGeometries g1 = GEOSGetNumGeometries g2
        · simp only [if_pos heq]
          rw [eqlLoopF_eq_firstNonTrue, eqlLoopF_eq_firstNonTrue]
          congr 1
          exact List.map_congr_left fun i _ => hstep g2 z i
        · simp [heq]

/-- The comparator value is the same at every sufficient fuel. -/
theorem geos_eqlF_congr (cseq pgon : Bool → GGeom → GGeom → Option Bool) :
    ∀ (d : Nat) (g1 : GGeom), depth g1 ≤ d →
    ∀ (fa fb : Nat), depth g1 < fa → depth g1 < fb →
    ∀ (og2 : Option GGeom) (z : Bool),
      geos_eqlF cseq pgon fa (some g1) og2 z =
        geos_eqlF cseq pgon fb (some g1) og2 z := by
  intro d
  induction d with
  | zero =>
      intro g1 hd fa fb hfa hfb og2 z
      apply geos_eqlF_congr_aux cseq pgon g1 fa fb (by omega) (by omega)
        _ og2 z
      intro g2 zz i
      apply geos_stepF_congr_noncoll
      intro k ch hcol
      rw [hcol] at hd
      simp [depth] at hd
  | succ d ih =>
      intro g1 hd fa fb hfa hfb og2 z
      apply geos_eqlF_congr_aux cseq pgon g1 fa fb (by omega) (by omega)
        _ og2 z
      intro g2 zz i
      by_cases hcol : ∃ k ch, g1 = GGeom.coll k ch
      · obtain ⟨k, ch, rfl⟩ := hcol
        apply geos_stepF_congr
        intro j s1 s2 hf1 hf2
        have hs1 : s1 ∈ ch := by
          simp only [GEOSGetGeometryN] at hf1
          exact mem_of_getElem_opt hf1
        have hdep : depth s1 < depth (GGeom.coll k ch) :=
          depth_lt_of_mem hs1
        simp only [geos_dispatchF]
        split_ifs with h1 h2 h3
        · rfl
        · rfl
        · exact ih s1 (by omega) (fa - 1) (fb - 1) (by omega) (by omega)
            (some s2) zz
        · rfl
      · apply geos_stepF_congr_noncoll
        intro k ch h
        exact hcol ⟨k, ch, h⟩

/- **** Claim C3 **** -/

/-- C3: for two non-null collections (whose child-count queries succeed by
construction), differing child counts make the comparator return definite
false, not indeterminate. -/
theorem collections_eql_count_mismatch
    (cseq pgon : Bool → GGeom → GGeom → Option Bool) (z : Bool)
    (k1 k2 : CollKind) (ch1 ch2 : List GGeom)
    (hne : ch1.length ≠ ch2.length) :
    rgeo_geos_geometry_collections_eql cseq pgon
      (some (.coll k1 ch1)) (some (.coll k2 ch2)) z = some false := by
  simp only [rgeo_geos_geometry_collections_eql, collFuel, geos_eqlF]
  have h1 : ¬(GEOSGetNumGeometries (.coll k1 ch1) < 0 ∨
      GEOSGetNumGeometries (.coll k2 ch2) < 0) := by
    simp only [GEOSGetNumGeometries]
    omega
  have h2 : ¬(GEOSGetNumGeometries (.coll k1 ch1) =
      GEOSGetNumGeometries (.coll k2 ch2)) := by
    simp only [GEOSGetNumGeometries]
    omega
  rw [if_neg h1, if_neg h2]

/-- C3 witness: an empty collection versus a one-element collection
compares definite-false. -/
theorem collections_eql_count_mismatch_witness :
    rgeo_geos_geometry_collections_eql (fun _ _ _ => none)
      (fun _ _ _ => none) (some (.coll .geometryCollection []))
      (some (.coll .geometryCollection [GGeom.point (0, 0)])) true =
      some false :=
  collections_eql_count_mismatch (fun _ _ _ => none) (fun _ _ _ => none)
    true .geometryCollection .geometryCollection []
    [GGeom.point (0, 0)] (by decide)

/- **** Claim C4 **** -/

/-- C4: the comparator is indeterminate — never coerced to false — on
every unanswerable sub-query: a null input, a failing child-count query,
a failing child kind query, or a child of unrecognized kind; and on
equal-count collections it equals the first child comparison that is not
definite-true (adopting false or indeterminate as found, in index order),
returning true exactly when every child comparison is definite-true.
(A child fetch below the common count cannot fail in the value embedding,
so that indeterminate source is vacuously covered.) -/
theorem collections_eql_indeterminate_spec
    (cseq pgon : Bool → GGeom → GGeom → Option Bool) (z : Bool) :
    (∀ og2, rgeo_geos_geometry_collections_eql cseq pgon none og2 z
       = none) ∧
    (∀ og1, rgeo_geos_geometry_collections_eql cseq pgon og1 none z
       = none) ∧
    (∀ g1 g2, GEOSGetNumGeometries g1 < 0 ∨ GEOSGetNumGeometries g2 < 0 →
      rgeo_geos_geometry_collections_eql cseq pgon (some g1) (some g2) z
        = none) ∧
    (∀ s1 s2, GEOSGeomTypeId s1 < 0 ∨ GEOSGeomTypeId s2 < 0 →
      childCmp cseq pgon s1 s2 z = none) ∧
    (∀ s1 s2, 7 < GEOSGeomTypeId s1 →
      GEOSGeomTypeId s1 = GEOSGeomTypeId s2 →
      childCmp cseq pgon s1 s2 z = none) ∧
    (∀ k1 k2 ch1 ch2, ch1.length = ch2.length →
      rgeo_geos_geometry_collections_eql cseq pgon
          (some (.coll k1 ch1)) (some (.coll k2 ch2)) z =
        firstNonTrue (List.zipWith
          (fun a b => childCmp cseq pgon a b z) ch1 ch2)) ∧
    (∀ rs, (∀ r ∈ rs, r = some true) → firstNonTrue rs = some true) ∧
    (∀ rs1 r rs2, r ≠ some true → (∀ x ∈ rs1, x = some true) →
      firstNonTrue (rs1 ++ r :: rs2) = r) := by
  have hsucc : ∀ (f : Nat) og2 zz,
      geos_eqlF cseq pgon (f + 1) none og2 zz = none := by
    intro f og2 zz
    cases og2 <;> simp [geos_eqlF]
  refine ⟨?_, ?_, ?_, ?_, ?_, ?_, ?_, ?_⟩
  · intro og2
    exact hsucc 0 og2 z
  · intro og1
    cases og1 with
    | none => exact hsucc 0 none z
    | some g1 => simp [rgeo_geos_geometry_collections_eql, collFuel,
        geos_eqlF]
  · intro g1 g2 h
    simp only [rgeo_geos_geometry_collections_eql, collFuel, geos_eqlF]
    rw [if_pos h]
  · intro s1 s2 h
    simp only [childCmp]
    rw [if_pos h]
  · intro s1 s2 h7 heq
    simp only [childCmp]
    rw [if_neg (by omega), if_pos heq, if_neg (by omega),
      if_neg (by omega), if_neg (by omega)]
  · intro k1 k2 ch1 ch2 hlen
    simp only [rgeo_geos_geometry_collections_eql, collFuel, geos_eqlF]
    have h1 : ¬(GEOSGetNumGeometries (.coll k1 ch1) < 0 ∨
        GEOSGetNumGeometries (.coll k2 ch2) < 0) := by
      simp only [GEOSGetNumGeometries]
      omega
    have h2 : GEOSGetNumGeometries (.coll k1 ch1) =
        GEOSGetNumGeometries (.coll k2 ch2) := by
      simp only [GEOSGetNumGeometries]
      omega
    rw [if_neg h1, if_pos h2]
    have htn : (GEOSGetNumGeometries (.coll k1 ch1)).toNat = ch1.length := by
      simp [GEOSGetNumGeometries]
    rw [htn, eqlLoopF_eq_firstNonTrue]
    congr 1
    apply List.ext_getElem
    · simp [hlen]
    · intro i hi1 hi2
      simp only [List.getElem_map, List.getElem_range, List.getElem_zipWith]
      have hi : i < ch1.length := by simpa using hi1
      have hi2l : i < ch2.length := by omega
      have hf1 : GEOSGetGeometryN (.coll k1 ch1) i = some ch1[i] := by
        simp [GEOSGetGeometryN, List.getElem?_eq_getElem hi]
      have hf2 : GEOSGetGeometryN (.coll k2 ch2) i = some ch2[i] := by
        simp [GEOSGetGeometryN, List.getElem?_eq_getElem hi2l]
      simp only [geos_stepF, hf1, hf2, childCmp, geos_dispatchF,
        rgeo_geos_geometry_collections_eql, collFuel]
      split_ifs with h1 h2 h3 h4 h5
      all_goals try rfl
      exact geos_eqlF_congr cseq pgon (depth ch1[i]) ch1[i] le_rfl _ _
        (depth_lt_of_mem (List.getElem_mem hi)) (by omega) (some ch2[i]) z
  · intro rs hall
    induction rs with
    | nil => rfl
    | cons r rest ih =>
        rw [firstNonTrue, if_pos (hall r (by simp))]
        exact ih fun x hx => hall x (by simp [hx])
  · intro rs1 r rs2 hr hall
    induction rs1 with
    | nil => simp [firstNonTrue, hr]
    | cons x rest ih =>
        rw [List.cons_append, firstNonTrue, if_pos (hall x (by simp))]
        exact ih fun y hy => hall y (by simp [hy])

/-- C4 witness: a malformed handle whose child-count query fails makes
the comparator indeterminate. -/
theorem collections_eql_indeterminate_spec_witness :
    rgeo_geos_geometry_collections_eql (fun _ _ _ => some true)
      (fun _ _ _ => some true) (some (GGeom.weird (-1)))
      (some (GGeom.point (0, 0))) true = none :=
  (collections_eql_indeterminate_spec (fun _ _ _ => some true)
    (fun _ _ _ => some true) true).2.2.1 (GGeom.weird (-1))
    (GGeom.point (0, 0)) (Or.inl (by decide))
